import Mathlib

/-!
Verification of the genezio TypeScript SDK generator
(`src/sdk/languages/typescriptSdk.ts`, given as `src/unnamed/part_002`),
against its natural-language specification.

The data model follows `src/models/genezioModels.ts`; the generator logic
follows the `SdkGenerator` class of the TypeScript SDK generator file.
-/

set_option maxHeartbeats 1000000
set_option maxRecDepth 100000

namespace Genezio

/-- `TriggerType` from `projectConfiguration/yaml/models.ts`. -/
inductive TriggerType where
  | jsonrpc
  | cron
  | http
deriving DecidableEq, Repr

/-- `AstNodeType` from `models/genezioModels.ts`. -/
inductive AstNodeType where
  | StringLiteral
  | IntegerLiteral
  | BooleanLiteral
  | FloatLiteral
  | NullLiteral
  | DoubleLiteral
  | BigIntLiteral
  | VoidLiteral
  | AnyLiteral
  | ArrayType
  | DateType
  | MapType
  | PromiseType
  | ConstType
  | NativeType
  | ParamType
  | CustomNodeLiteral
  | Enum
  | TypeAlias
  | TypeLiteral
  | StructLiteral
  | UnionType
  | ParameterDefinition
  | MethodDefinition
  | ClassDefinition
  | PropertyDefinition
deriving DecidableEq, Repr

/-- A JavaScript `string | number` value (an `EnumCase.value`).  Numbers in
the inputs of interest are integral, printed the way JavaScript prints them. -/
inductive JsValue where
  | str (s : String)
  | num (n : Int)
deriving DecidableEq, Repr

/-- String interpolation of a possibly-absent JavaScript value: `undefined`
interpolates to the text "undefined". -/
def jsInterp : Option JsValue → String
  | none => "undefined"
  | some (.str s) => s
  | some (.num n) => toString n

/-- `EnumCase` from `models/genezioModels.ts`: `{name, value, type}`.  The
`value` field is declared `string | number` but the generator guards against
`undefined`/`null` at runtime, so it is modelled as optional. -/
structure EnumCase where
  name : String
  value : Option JsValue
  type : AstNodeType
deriving DecidableEq, Repr

/-- The `defaultValue` field of `ParameterDefinition`: `{value, type}`. -/
structure DefaultValue where
  value : String
  type : AstNodeType
deriving DecidableEq, Repr

mutual

/-- The `Node` tagged union of `models/genezioModels.ts`.  Every variant
carries the optional `path` field of the base interface; composite variants
carry their payloads.  `ClassDefinition` is itself a `Node` (it appears in
`Program.body`). -/
inductive Node where
  | stringLiteral (path : Option String)
  | integerLiteral (path : Option String)
  | booleanLiteral (path : Option String)
  | floatLiteral (path : Option String)
  | nullLiteral (path : Option String)
  | doubleLiteral (path : Option String)
  | bigIntLiteral (path : Option String)
  | voidLiteral (path : Option String)
  | anyLiteral (path : Option String)
  | dateType (path : Option String)
  | arrayType (path : Option String) (generic : Node)
  | mapType (path : Option String) (genericKey : Node) (genericValue : Node)
  | promiseType (path : Option String) (generic : Node)
  | customNodeLiteral (path : Option String) (rawValue : String)
  | enum (path : Option String) (name : String) (cases : List EnumCase)
  | typeAlias (path : Option String) (name : String) (aliasType : Node)
  | typeLiteral (path : Option String) (properties : List PropertyDefinition)
  | structLiteral (path : Option String) (name : String) (typeLiteral : Node)
  | unionType (path : Option String) (params : List Node)
  | classDefinition (path : Option String) (name : String)
      (methods : List MethodDefinition)

/-- `PropertyDefinition` from `models/genezioModels.ts`. -/
inductive PropertyDefinition where
  | mk (name : String) (optional : Bool) (type : Node)

/-- `ParameterDefinition` from `models/genezioModels.ts` (the fields the
generator reads). -/
inductive ParameterDefinition where
  | mk (name : String) (optional : Bool) (paramType : Node)
      (defaultValue : Option DefaultValue)

/-- `MethodDefinition` from `models/genezioModels.ts` (the fields the
generator reads). -/
inductive MethodDefinition where
  | mk (name : String) (params : List ParameterDefinition) (returnType : Node)

end

def PropertyDefinition.name : PropertyDefinition → String
  | .mk n _ _ => n

def PropertyDefinition.optional : PropertyDefinition → Bool
  | .mk _ o _ => o

def PropertyDefinition.type : PropertyDefinition → Node
  | .mk _ _ t => t

def ParameterDefinition.name : ParameterDefinition → String
  | .mk n _ _ _ => n

def ParameterDefinition.optional : ParameterDefinition → Bool
  | .mk _ o _ _ => o

def ParameterDefinition.paramType : ParameterDefinition → Node
  | .mk _ _ t _ => t

def ParameterDefinition.defaultValue : ParameterDefinition → Option DefaultValue
  | .mk _ _ _ d => d

def MethodDefinition.name : MethodDefinition → String
  | .mk n _ _ => n

def MethodDefinition.params : MethodDefinition → List ParameterDefinition
  | .mk _ p _ => p

def MethodDefinition.returnType : MethodDefinition → Node
  | .mk _ _ r => r

/-- The `type` discriminant of a node (`elem.type` in the TypeScript code). -/
def Node.nodeType : Node → AstNodeType
  | .stringLiteral _ => .StringLiteral
  | .integerLiteral _ => .IntegerLiteral
  | .booleanLiteral _ => .BooleanLiteral
  | .floatLiteral _ => .FloatLiteral
  | .nullLiteral _ => .NullLiteral
  | .doubleLiteral _ => .DoubleLiteral
  | .bigIntLiteral _ => .BigIntLiteral
  | .voidLiteral _ => .VoidLiteral
  | .anyLiteral _ => .AnyLiteral
  | .dateType _ => .DateType
  | .arrayType _ _ => .ArrayType
  | .mapType _ _ _ => .MapType
  | .promiseType _ _ => .PromiseType
  | .customNodeLiteral _ _ => .CustomNodeLiteral
  | .enum _ _ _ => .Enum
  | .typeAlias _ _ _ => .TypeAlias
  | .typeLiteral _ _ => .TypeLiteral
  | .structLiteral _ _ _ => .StructLiteral
  | .unionType _ _ => .UnionType
  | .classDefinition _ _ _ => .ClassDefinition

/-- The optional `path` field of a node. -/
def Node.path : Node → Option String
  | .stringLiteral p => p
  | .integerLiteral p => p
  | .booleanLiteral p => p
  | .floatLiteral p => p
  | .nullLiteral p => p
  | .doubleLiteral p => p
  | .bigIntLiteral p => p
  | .voidLiteral p => p
  | .anyLiteral p => p
  | .dateType p => p
  | .arrayType p _ => p
  | .mapType p _ _ => p
  | .promiseType p _ => p
  | .customNodeLiteral p _ => p
  | .enum p _ _ => p
  | .typeAlias p _ _ => p
  | .typeLiteral p _ => p
  | .structLiteral p _ _ => p
  | .unionType p _ => p
  | .classDefinition p _ _ => p

/-- `(node as any).name` in the TypeScript code: the `name` field where one
exists, the JavaScript `undefined` (here `none`) elsewhere. -/
def Node.jsName : Node → Option String
  | .enum _ n _ => some n
  | .typeAlias _ n _ => some n
  | .structLiteral _ n _ => some n
  | .classDefinition _ n _ => some n
  | _ => none

/-- The `TYPESCRIPT_RESERVED_WORDS` array of the TypeScript SDK generator
(duplicates included, as in the source). -/
def TYPESCRIPT_RESERVED_WORDS : List String :=
  ["abstract", "as", "asserts", "async", "await", "boolean", "break", "case",
   "catch", "class", "const", "constructor", "continue", "declare", "default",
   "delete", "do", "else", "enum", "export", "extends", "false", "finally",
   "for", "from", "function", "get", "if", "implements", "import", "in",
   "infer", "instanceof", "interface", "is", "keyof", "let", "module",
   "namespace", "never", "new", "null", "number", "object", "of", "package",
   "private", "protected", "public", "readonly", "require", "global",
   "return", "set", "static", "string", "super", "switch", "symbol", "this",
   "throw", "true", "try", "type", "typeof", "unique", "unknown", "var",
   "void", "while", "with", "yield", "async", "await", "of"]

mutual

/-- `SdkGenerator.getParamType` of the TypeScript SDK generator: the if/else
chain on `elem.type`, rendered as a match in source order; the final
`return "any"` is the catch-all (reached e.g. by `MapType`, `NullLiteral`,
`BigIntLiteral`, `VoidLiteral`, `StructLiteral`). -/
def getParamType : Node → String
  | .customNodeLiteral _ rawValue => rawValue
  | .stringLiteral _ => "string"
  | .integerLiteral _ => "number"
  | .floatLiteral _ => "number"
  | .doubleLiteral _ => "number"
  | .booleanLiteral _ => "boolean"
  | .anyLiteral _ => "any"
  | .arrayType _ generic => "Array<" ++ getParamType generic ++ ">"
  | .promiseType _ generic => "Promise<" ++ getParamType generic ++ ">"
  | .enum _ name _ => name
  | .typeAlias _ name _ => name
  | .unionType _ params => String.intercalate " | " (getParamTypeList params)
  | .typeLiteral _ properties =>
      "\x7b" ++ String.intercalate ", " (getParamTypeProps properties) ++ "\x7d"
  | .dateType _ => "Date"
  | _ => "any"

/-- `params.map((e) => this.getParamType(e))` inside the `UnionType` branch. -/
def getParamTypeList : List Node → List String
  | [] => []
  | n :: rest => getParamType n :: getParamTypeList rest

/-- `properties.map((e) => ...)` inside the `TypeLiteral` branch. -/
def getParamTypeProps : List PropertyDefinition → List String
  | [] => []
  | .mk name optional type :: rest =>
      (name ++ (if optional then "?" else "") ++ ": " ++ getParamType type)
        :: getParamTypeProps rest

end

/-- `SdkGenerator.getReturnType` of the TypeScript SDK generator.  The JS
falsy guard `!returnType` is unreachable here because `returnType` is a
required field of `MethodDefinition`. -/
def getReturnType (returnType : Node) : String :=
  if returnType.nodeType = .VoidLiteral then ""
  else
    let value := getParamType returnType
    let value :=
      if returnType.nodeType ≠ .PromiseType then "Promise<" ++ value ++ ">"
      else value
    ": " ++ value

/-- The arrow function inside the `Enum` branch of
`SdkGenerator.generateExternalType`: it returns a string for the
`StringLiteral` and `DoubleLiteral` value kinds and (implicitly) the
JavaScript `undefined` for every other kind. -/
def renderEnumCase (c : EnumCase) : Option String :=
  if c.type = .StringLiteral then
    some (c.name ++ " = \"" ++ jsInterp c.value ++ "\"")
  else if c.type = .DoubleLiteral then
    match c.value with
    | some v => some (c.name ++ " = " ++ jsInterp (some v))
    | none => some c.name
  else
    none

/-- JavaScript `Array.prototype.join`: elements that are `undefined` are
rendered as the empty string. -/
def jsJoinOpt (sep : String) (l : List (Option String)) : String :=
  String.intercalate sep (l.map (fun o => o.getD ""))

/-- `SdkGenerator.generateExternalType` of the TypeScript SDK generator. -/
def generateExternalType (type : Node) : String :=
  match type with
  | .typeAlias _ name aliasType =>
      "type " ++ name ++ " = " ++ getParamType aliasType ++ ";"
  | .enum _ name cases =>
      "enum " ++ name ++ " \x7b"
        ++ jsJoinOpt ", " (cases.map renderEnumCase) ++ "\x7d"
  | .structLiteral _ name typeLiteral =>
      "type " ++ name ++ " = " ++ getParamType typeLiteral ++ ";"
  | _ => ""

mutual

/-- `SdkGenerator.isExternalTypeUsed` of the TypeScript SDK generator:
whether `type`'s own definition references `externalType` (by name, through
a `CustomNodeLiteral`). -/
def isExternalTypeUsed (externalType : Node) (type : Node) : Bool :=
  match type with
  | .typeAlias _ _ aliasType => isExternalTypeUsed externalType aliasType
  | .enum _ _ _ => false
  | .structLiteral _ _ typeLiteral => isExternalTypeUsed externalType typeLiteral
  | .arrayType _ generic => isExternalTypeUsed externalType generic
  | .promiseType _ generic => isExternalTypeUsed externalType generic
  | .unionType _ params => isExternalTypeUsedAny externalType params
  | .typeLiteral _ properties => isExternalTypeUsedProps externalType properties
  | .dateType _ => false
  | .customNodeLiteral _ rawValue => externalType.jsName == some rawValue
  | _ => false

/-- `params.some((e) => ...)` inside the `UnionType` branch. -/
def isExternalTypeUsedAny (externalType : Node) : List Node → Bool
  | [] => false
  | n :: rest =>
      isExternalTypeUsed externalType n || isExternalTypeUsedAny externalType rest

/-- `properties.some((e) => ...)` inside the `TypeLiteral` branch. -/
def isExternalTypeUsedProps (externalType : Node) : List PropertyDefinition → Bool
  | [] => false
  | .mk _ _ type :: rest =>
      isExternalTypeUsed externalType type
        || isExternalTypeUsedProps externalType rest

end

/-- JavaScript truthiness of an optional string (`undefined` and `""` are
falsy). -/
def truthy : Option String → Bool
  | none => false
  | some s => s ≠ ""

/-- Whether the second character list occurs at the head of the first. -/
def charsStartWith : List Char → List Char → Bool
  | _, [] => true
  | [], _ :: _ => false
  | c :: cs, d :: ds => c == d && charsStartWith cs ds

/-- Whether `pat` occurs somewhere inside the character list. -/
def charsContain (pat : List Char) : List Char → Bool
  | [] => pat.isEmpty
  | c :: rest => charsStartWith (c :: rest) pat || charsContain pat rest

/-- JavaScript `String.prototype.includes` (substring test; the empty
pattern is always contained). -/
def jsIncludes (s sub : String) : Bool :=
  charsContain sub.data s.data

/-- Split a character list on `/`. -/
def splitOnSlash : List Char → List (List Char)
  | [] => [[]]
  | c :: rest =>
      let r := splitOnSlash rest
      if c == '/' then [] :: r
      else
        match r with
        | [] => [[c]]
        | g :: gs => (c :: g) :: gs

/-- Node's POSIX `path.relative` for the already-relative, `..`-free paths
the generator feeds it: both paths resolve against the same working
directory, so the result is `..` for each non-common segment of `fromP`
followed by the non-common segments of `toP`. -/
def pathRelative (fromP toP : String) : String :=
  let clean := fun (p : String) =>
    ((splitOnSlash p.data).map String.mk).filter (fun s => s ≠ "" && s ≠ ".")
  let rec dropCommon : List String → List String → List String × List String
    | f :: fs, t :: ts => if f = t then dropCommon fs ts else (f :: fs, t :: ts)
    | fs, ts => (fs, ts)
  let (f, t) := dropCommon (clean fromP) (clean toP)
  String.intercalate "/" (f.map (fun _ => "..") ++ t)

/-- The `relativePath.substring(0,3) == "../"` strip performed by
`generateSdk` on each computed relative path. -/
def stripDotDot (s : String) : String :=
  match s.data with
  | '.' :: '.' :: '/' :: rest => String.mk rest
  | _ => s

/-- `SdkMethodConfiguration` from `models/genezioModels.ts`. -/
structure SdkMethodConfiguration where
  name : String
  type : TriggerType
deriving DecidableEq, Repr

/-- The class configuration consumed by the generator (`path`, class-level
`type`, and per-method configurations). -/
structure SdkClassConfiguration where
  path : String
  type : TriggerType
  methods : List SdkMethodConfiguration
deriving DecidableEq, Repr

/-- Modelled from the spec: `classConfiguration.getMethodType(name)` — the
class-configuration collaborator is not among the provided sources, and the
spec describes the exposure mode as "method-level trigger, falling back to
class-level trigger".  A method configuration with a matching name supplies
the trigger; otherwise the class-level trigger applies. -/
def getMethodType (cfg : SdkClassConfiguration) (methodName : String) :
    TriggerType :=
  match cfg.methods.find? (fun m => m.name == methodName) with
  | some m => m.type
  | none => cfg.type

/-- `Program` from `models/genezioModels.ts` (`body` may be `undefined`). -/
structure Program where
  body : Option (List Node)

/-- `SdkGeneratorClassesInfoInput` from `models/genezioModels.ts` (the
fields the generator reads). -/
structure SdkGeneratorClassesInfoInput where
  program : Program
  classConfiguration : SdkClassConfiguration

/-- `SdkGeneratorInput` (the field the generator reads). -/
structure SdkGeneratorInput where
  classesInfo : List SdkGeneratorClassesInfoInput

/-- `SdkFileClass` from `models/genezioModels.ts`. -/
structure SdkFileClass where
  path : String
  data : String
  className : String
deriving DecidableEq, Repr

/-- One entry of a method view's `parameters`/`sendParameters` array. -/
structure ParamView where
  name : String
  last : Bool
deriving DecidableEq, Repr

/-- The per-method render view built inside `generateSdk`. -/
structure MethodView where
  name : String
  parameters : List ParamView
  sendParameters : List ParamView
  returnType : String
  methodCaller : String
deriving DecidableEq, Repr

/-- One `{name}` entry of an import group's `models` array. -/
structure ImportModel where
  name : String
  last : Bool
deriving DecidableEq, Repr

/-- One entry of a view's `imports` array. -/
structure ImportGroup where
  path : String
  models : List ImportModel
  last : Bool
deriving DecidableEq, Repr

/-- One `{type}` entry of a view's `externalTypes` array. -/
structure RenderedType where
  type : String
deriving DecidableEq, Repr

/-- A per-provider-path model view (`modelViews` entries in `generateSdk`). -/
structure ModelView where
  path : String
  externalTypes : List RenderedType
  imports : List ImportGroup
  last : Bool
deriving DecidableEq, Repr

/-- The per-class render view built inside `generateSdk`. -/
structure ClassView where
  className : String
  url : String
  methods : List MethodView
  externalTypes : List RenderedType
  imports : List ImportGroup
deriving DecidableEq, Repr

/-- The element of `methodDefinition.params.map(...)` building
`methodView.parameters`: sanitized name, `?` for optional parameters, the
rendered type and the rendered default value. -/
def paramDeclEntry (e : ParameterDefinition) : ParamView :=
  { name :=
      (if TYPESCRIPT_RESERVED_WORDS.contains e.name then e.name ++ "_"
       else e.name)
        ++ (if e.optional then "?" else "") ++ ": "
        ++ getParamType e.paramType
        ++ (match e.defaultValue with
            | some d =>
                " = " ++ (if d.type = .StringLiteral then
                    "'" ++ d.value ++ "'"
                  else d.value)
            | none => ""),
    last := false }

/-- The element of `methodDefinition.params.map(...)` building
`methodView.sendParameters`: the sanitized name only. -/
def sendParamEntry (e : ParameterDefinition) : ParamView :=
  { name :=
      if TYPESCRIPT_RESERVED_WORDS.contains e.name then e.name ++ "_"
      else e.name,
    last := false }

/-- `if (length > 0) list[length - 1].last = true` applied after
constructing a `parameters`/`sendParameters` array. -/
def setLastFlag : List ParamView → List ParamView
  | [] => []
  | [x] => [{ x with last := true }]
  | x :: y :: rest => x :: setLastFlag (y :: rest)

/-- The body of the qualifying-method branch of the methods loop in
`generateSdk`: the `methodView` object for one method. -/
def buildMethodView (className : String) (m : MethodDefinition) : MethodView :=
  { name := m.name,
    returnType := getReturnType m.returnType,
    methodCaller :=
      if m.params.length = 0 then
        "\"" ++ className ++ "." ++ m.name ++ "\""
      else
        "\"" ++ className ++ "." ++ m.name ++ "\", ",
    parameters := setLastFlag (m.params.map paramDeclEntry),
    sendParameters := setLastFlag (m.params.map sendParamEntry) }

/-- The methods loop of `generateSdk`: views of the methods that survive the
trigger check, in source declaration order, together with the final value of
the `exportClassChecker` flag. -/
def processMethods (cfg : SdkClassConfiguration) (className : String) :
    List MethodDefinition → List MethodView × Bool
  | [] => ([], false)
  | m :: rest =>
      if getMethodType cfg m.name ≠ TriggerType.jsonrpc
          ∨ cfg.type ≠ TriggerType.jsonrpc then
        processMethods cfg className rest
      else
        let (views, _) := processMethods cfg className rest
        (buildMethodView className m :: views, true)

/-- JavaScript `a || b` for strings (`a` when truthy, else `b`). -/
def jsOr (a b : String) : String :=
  if a = "" then b else a

/-- The index of the last element satisfying `p` (the `modelViews` scan in
the nested loop of `generateSdk` has no `break`, so the last match wins). -/
def lastIdxWhere (p : α → Bool) : List α → Option Nat
  | [] => none
  | x :: rest =>
      match lastIdxWhere p rest with
      | some i => some (i + 1)
      | none => if p x then some 0 else none

/-- In-place update of the element at index `i` (JavaScript object-reference
mutation of a `modelViews` entry). -/
def modifyIdx : List α → Nat → (α → α) → List α
  | [], _, _ => []
  | x :: rest, 0, f => f x :: rest
  | x :: rest, n + 1, f => x :: modifyIdx rest n f

/-- The import scan used on a model view's `imports` (`generateSdk`, nested
loop): find the first group whose `path` equals the external type's raw path
and which does not yet hold a model of that name; push the model there and
stop.  Returns the updated list and the `found` flag. -/
def addImportScan (etPath etName : String) :
    List ImportGroup → List ImportGroup × Bool
  | [] => ([], false)
  | g :: rest =>
      if g.path == etPath
          && (g.models.find? (fun m => m.name == etName)).isNone then
        ({ g with models := g.models ++ [⟨etName, false⟩], last := false }
          :: rest, true)
      else
        let (r, found) := addImportScan etPath etName rest
        (g :: r, found)

/-- The import scan used on the class view's `imports` (`generateSdk`,
fallback branch).  The duplicate check there is
`!importType.models.includes(name)`, which compares the `{name}` objects
with a string and is therefore always true, so the scan condition reduces to
the path comparison alone. -/
def addImportScanView (etPath etName : String) :
    List ImportGroup → List ImportGroup × Bool
  | [] => ([], false)
  | g :: rest =>
      if g.path == etPath then
        ({ g with models := g.models ++ [⟨etName, false⟩], last := false }
          :: rest, true)
      else
        let (r, found) := addImportScanView etPath etName rest
        (g :: r, found)

/-- The ownership scan at the end of the external-type branch of
`generateSdk`: append the rendered declaration to the model view owning the
external type's path, or create that model view. -/
def addOwnership (etPath : String) (entry : RenderedType) :
    List ModelView → List ModelView
  | [] => [⟨etPath, [entry], [], false⟩]
  | mv :: rest =>
      if mv.path == etPath then
        { mv with externalTypes := mv.externalTypes ++ [entry],
                  last := false } :: rest
      else
        mv :: addOwnership etPath entry rest

/-- State of the nested loop over `externalTypes` inside `generateSdk`:
the shared `modelViews` array and the `currentView` reference (an index into
`modelViews`, or `none` for JavaScript `null`). -/
structure InnerState where
  modelViews : List ModelView
  current : Option Nat

/-- One iteration of the nested (`nestedExternalType`) loop of `generateSdk`
for the outer external type `et` (with raw path `etPath` and name
`etName`). -/
def innerStep (etPath etName : String) (et : Node) (s : InnerState)
    (nested : Node) : InnerState :=
  let isUsed := isExternalTypeUsed et nested
  let s :=
    if isUsed && truthy nested.path && (nested.path.getD "") ≠ etPath then
      let npath := nested.path.getD ""
      match lastIdxWhere (fun mv => mv.path == npath) s.modelViews with
      | some i => { s with current := some i }
      | none =>
          { modelViews := s.modelViews ++ [⟨npath, [], [], false⟩],
            current := some s.modelViews.length }
    else s
  match s.current with
  | none => s
  | some i =>
      let update := fun (mv : ModelView) =>
        let (imports, found) := addImportScan etPath etName mv.imports
        let relativePath :=
          stripDotDot (pathRelative (jsOr mv.path ".") (jsOr etPath "."))
        let imports :=
          if !found && (imports.find? (fun g => g.path == relativePath)).isNone
          then imports ++ [⟨relativePath, [⟨etName, false⟩], false⟩]
          else imports
        { mv with imports := imports }
      { s with modelViews := modifyIdx s.modelViews i update }

/-- State of the outer loop over `externalTypes` inside `generateSdk`: the
class view's `imports` and `externalTypes` arrays and the `modelViews`
array. -/
structure ExtState where
  viewImports : List ImportGroup
  viewExternalTypes : List RenderedType
  modelViews : List ModelView
deriving DecidableEq, Repr

/-- One iteration of the outer (`externalType`) loop of `generateSdk`. -/
def extStep (cfg : SdkClassConfiguration) (allExternals : List Node)
    (s : ExtState) (et : Node) : ExtState :=
  if truthy et.path && !(jsIncludes cfg.path (et.path.getD "")) then
    let etPath := et.path.getD ""
    let etName := et.jsName.getD "undefined"
    let inner :=
      allExternals.foldl (innerStep etPath etName et) ⟨s.modelViews, none⟩
    let (viewImports, modelViews) :=
      match inner.current with
      | some _ => (s.viewImports, inner.modelViews)
      | none =>
          let (vi, found) := addImportScanView etPath etName s.viewImports
          let vi :=
            if found then vi
            else
              vi ++ [⟨stripDotDot (pathRelative "." (jsOr etPath ".")),
                      [⟨etName, false⟩], false⟩]
          (vi, inner.modelViews)
    let modelViews := addOwnership etPath ⟨generateExternalType et⟩ modelViews
    { viewImports := viewImports,
      viewExternalTypes := s.viewExternalTypes,
      modelViews := modelViews }
  else
    { s with
        viewExternalTypes :=
          s.viewExternalTypes ++ [⟨generateExternalType et⟩] }

/-- The whole loop over `externalTypes` inside `generateSdk`. -/
def processExternalTypes (cfg : SdkClassConfiguration)
    (externalTypes : List Node) : ExtState :=
  externalTypes.foldl (extStep cfg externalTypes) ⟨[], [], []⟩

/-- `if (models.length > 0) models[models.length - 1].last = true`. -/
def setLastModel : List ImportModel → List ImportModel
  | [] => []
  | [x] => [{ x with last := true }]
  | x :: y :: rest => x :: setLastModel (y :: rest)

/-- The per-import fix-up loops at the end of the per-class body of
`generateSdk`: reset the group's `last` flag and mark the final model. -/
def fixupGroup (g : ImportGroup) : ImportGroup :=
  { g with last := false, models := setLastModel g.models }

/-- The body scan at the head of the per-class body of `generateSdk`: the
`ClassDefinition` (the last one wins) and the other body nodes, in order. -/
def splitBody : List Node → Option (String × List MethodDefinition) × List Node
  | [] => (none, [])
  | .classDefinition _ name methods :: rest =>
      let (cls, exts) := splitBody rest
      (some (cls.getD (name, methods)), exts)
  | e :: rest =>
      let (cls, exts) := splitBody rest
      (cls, e :: exts)

/-- `rawSdkClassName.charAt(0).toLowerCase() + rawSdkClassName.slice(1)`. -/
def lowerFirst (s : String) : String :=
  match s.data with
  | [] => ""
  | c :: rest => String.mk (c.toLower :: rest)

/-- `{{#models}}{{{name}}}{{^last}}, {{/last}}{{/models}}` — the model list
of one import line. -/
def renderModels (models : List ImportModel) : String :=
  String.join (models.map (fun m => m.name ++ (if m.last then "" else ", ")))

/-- One rendered line of the `{{#imports}}` section of the templates. -/
def renderImportLine (g : ImportGroup) : String :=
  "import \x7b " ++ renderModels g.models ++ " \x7d from \"./" ++ g.path ++ "\";\n"

/-- One rendered line of the `{{#externalTypes}}` section of the templates. -/
def renderExternalTypeLine (t : RenderedType) : String :=
  "export " ++ t.type ++ "\n"

/-- `{{#parameters}}{{{name}}}{{^last}}, {{/last}}{{/parameters}}` (also used
for `sendParameters`). -/
def renderParams (ps : List ParamView) : String :=
  String.join (ps.map (fun p => p.name ++ (if p.last then "" else ", ")))

/-- One rendered block of the `{{#methods}}` section of the proxy template
(`{{{className}}}` resolves in the enclosing view). -/
def renderMethod (className : String) (m : MethodView) : String :=
  "  static async " ++ m.name ++ "(" ++ renderParams m.parameters ++ ")"
    ++ m.returnType ++ " \x7b\n"
    ++ "    return await " ++ className ++ ".remote.call(" ++ m.methodCaller
    ++ renderParams m.sendParameters ++ ");\n  \x7d\n"

/-- The fixed header shared by both templates. -/
def templateHeader : String :=
  "/**\n* This is an auto generated code. This code should not be modified since the file can be overwriten\n* if new genezio commands are executed.\n*/\n\n"

/-- Mustache rendering of the proxy-class `template` on a class view. -/
def renderTemplate (view : ClassView) : String :=
  templateHeader
    ++ "import \x7b Remote \x7d from \"./remote\";\n"
    ++ String.join (view.imports.map renderImportLine)
    ++ "\n"
    ++ String.join (view.externalTypes.map renderExternalTypeLine)
    ++ "\n"
    ++ "export class " ++ view.className ++ " \x7b\n"
    ++ "  static remote = new Remote(\"" ++ view.url ++ "\");\n\n"
    ++ String.join (view.methods.map (renderMethod view.className))
    ++ "\x7d\n\nexport \x7b Remote \x7d;\n"

/-- Mustache rendering of the `modelTemplate` on a model view. -/
def renderModelTemplate (mv : ModelView) : String :=
  templateHeader
    ++ String.join (mv.imports.map renderImportLine)
    ++ "\n"
    ++ String.join (mv.externalTypes.map renderExternalTypeLine)
    ++ "\n"

/-- Modelled from the spec: the transport-stub template `nodeSdkTs`
(`sdk/templates/nodeSdkTs`, not among the provided sources).  Per the spec
it is "copied with a single substitution marker for the eventual live
invocation endpoint"; only the `%%%url%%%` marker matters to the generator,
which replaces its first occurrence with the text `undefined`. -/
def nodeSdkTs : String :=
  "/**\n* This is an auto generated code. This code should not be modified since the file can be overwriten\n* if new genezio commands are executed.\n*/\n\nexport class Remote \x7b\n  url: any = %%%url%%%;\n\n  constructor(url: string) \x7b\n    this.url = url;\n  \x7d\n\n  async call(method: string, ...args: any[]) \x7b\n    return remoteCall(this.url, method, ...args);\n  \x7d\n\x7d\n"

/-- Replace the first occurrence of `pat` in a character list. -/
def replaceFirstChars (pat repl : List Char) : List Char → List Char
  | [] => if pat.isEmpty then repl else []
  | c :: rest =>
      if charsStartWith (c :: rest) pat then
        repl ++ (c :: rest).drop pat.length
      else
        c :: replaceFirstChars pat repl rest

/-- JavaScript `String.prototype.replace` with a string pattern: only the
first occurrence is replaced. -/
def jsReplaceFirst (s pat repl : String) : String :=
  String.mk (replaceFirstChars pat.data repl.data s.data)

/-- The `remote.ts` artifact pushed unconditionally at the end of
`generateSdk`. -/
def remoteFile : SdkFileClass :=
  { className := "Remote",
    path := "remote.ts",
    data := jsReplaceFirst nodeSdkTs "%%%url%%%" "undefined" }

/-- The per-class body of the `classesInfo` loop of `generateSdk`: the files
this class contributes (none when the body is `undefined`, holds no
`ClassDefinition`, or no method qualifies). -/
def processClass (classInfo : SdkGeneratorClassesInfoInput) :
    List SdkFileClass :=
  match classInfo.program.body with
  | none => []
  | some body =>
      match splitBody body with
      | (none, _) => []
      | (some (className, methods), externalTypes) =>
          let cfg := classInfo.classConfiguration
          let (methodViews, exportClassChecker) :=
            processMethods cfg className methods
          let ext := processExternalTypes cfg externalTypes
          let viewImports := ext.viewImports.map fixupGroup
          let modelViews := ext.modelViews.map
            (fun mv => { mv with imports := mv.imports.map fixupGroup })
          if !exportClassChecker then []
          else
            let view : ClassView :=
              { className := className,
                url := "%%%link_to_be_replace%%%",
                methods := methodViews,
                externalTypes := ext.viewExternalTypes,
                imports := viewImports }
            { path := lowerFirst (className ++ ".sdk.ts"),
              data := renderTemplate view,
              className := className }
              :: modelViews.map (fun mv =>
                  { path := mv.path ++ ".ts",
                    data := renderModelTemplate mv,
                    className := "" })

/-- `SdkGenerator.generateSdk`: the full ordered output file list — the
contributions of every class in `classesInfo`, followed by the
unconditional `remote.ts` artifact. -/
def generateSdk (input : SdkGeneratorInput) : List SdkFileClass :=
  (input.classesInfo.flatMap processClass) ++ [remoteFile]

/-- The reserved-word disambiguation transform (spec §4.2 `sanitize`): a
name colliding with a TypeScript reserved word gets the fixed suffix `_`. -/
def sanitize (name : String) : String :=
  if TYPESCRIPT_RESERVED_WORDS.contains name then name ++ "_" else name

/-- The exposure check of the methods loop, as a predicate: the method-level
trigger (falling back to the class-level trigger) is `jsonrpc` and the
class-level trigger is `jsonrpc`. -/
def qualifies (cfg : SdkClassConfiguration) (m : MethodDefinition) : Bool :=
  getMethodType cfg m.name == TriggerType.jsonrpc
    && cfg.type == TriggerType.jsonrpc

/-- The lexicographic string order used to formalise the spec's "ordered". -/
def strLe (a b : String) : Prop :=
  a.data ≤ b.data

instance : DecidablePred fun p : String × String => strLe p.1 p.2 :=
  fun p => inferInstanceAs (Decidable (p.1.data ≤ p.2.data))

instance (a b : String) : Decidable (strLe a b) :=
  inferInstanceAs (Decidable (a.data ≤ b.data))

/-! Helper lemmas about the embedded definitions. -/

theorem getParamTypeList_eq (ps : List Node) :
    getParamTypeList ps = ps.map getParamType := by
  induction ps with
  | nil => rfl
  | cons n rest ih => simp [getParamTypeList, ih]

/-- The string rendered for one property of a `TypeLiteral`. -/
def propRender (e : PropertyDefinition) : String :=
  e.name ++ (if e.optional then "?" else "") ++ ": " ++ getParamType e.type

theorem getParamTypeProps_eq (props : List PropertyDefinition) :
    getParamTypeProps props = props.map propRender := by
  induction props with
  | nil => rfl
  | cons p rest ih =>
      cases p
      simp [getParamTypeProps, propRender, PropertyDefinition.name,
        PropertyDefinition.optional, PropertyDefinition.type, ih]

theorem setLastFlag_map_name (l : List ParamView) :
    (setLastFlag l).map ParamView.name = l.map ParamView.name := by
  induction l with
  | nil => rfl
  | cons x rest ih =>
      cases rest with
      | nil => rfl
      | cons y rest' => simpa [setLastFlag] using ih

theorem processMethods_eq (cfg : SdkClassConfiguration) (className : String)
    (methods : List MethodDefinition) :
    processMethods cfg className methods
      = ((methods.filter (qualifies cfg)).map (buildMethodView className),
          methods.any (qualifies cfg)) := by
  induction methods with
  | nil => rfl
  | cons m rest ih =>
      by_cases hq : qualifies cfg m = true
      · have h12 := hq
        rw [qualifies, Bool.and_eq_true, beq_iff_eq, beq_iff_eq] at h12
        obtain ⟨h1, h2⟩ := h12
        simp only [processMethods, h1, h2, ne_eq, not_true_eq_false,
          or_self, if_false, ih]
        simp [List.filter_cons, hq, List.any_cons]
      · have h' : getMethodType cfg m.name ≠ TriggerType.jsonrpc
            ∨ cfg.type ≠ TriggerType.jsonrpc := by
          by_contra hcon
          push_neg at hcon
          exact hq (by simp [qualifies, hcon.1, hcon.2])
        simp only [processMethods, if_pos h', ih]
        simp [List.filter_cons, hq, List.any_cons]

theorem splitBody_fst_none (body : List Node)
    (h : ∀ n ∈ body, n.nodeType ≠ AstNodeType.ClassDefinition) :
    (splitBody body).1 = none := by
  induction body with
  | nil => rfl
  | cons e rest ih =>
      have he := h e (by simp)
      have hrest : ∀ n ∈ rest, n.nodeType ≠ AstNodeType.ClassDefinition :=
        fun n hn => h n (by simp [hn])
      cases e <;> simp_all [splitBody, Node.nodeType]

/-! The claims. -/

/-- C2, counterexample: `getParamType` does not recurse into `MapType`.
For the map node with key `StringLiteral` and value `IntegerLiteral` the
rendered string is exactly the permissive fallback `"any"` — identical to
the rendering of the unhandled variants — and is not built from the key
rendering `"string"` or the value rendering `"number"`. -/
theorem getParamType_mapType_falls_to_fallback :
    getParamType (.mapType none (.stringLiteral none) (.integerLiteral none))
        = "any"
      ∧ getParamType (.mapType none (.stringLiteral none)
          (.integerLiteral none)) = getParamType (.nullLiteral none)
      ∧ getParamType (.stringLiteral none) = "string"
      ∧ getParamType (.integerLiteral none) = "number" := by
  refine ⟨rfl, rfl, rfl, rfl⟩

/-- C2, amended: `getParamType` is a total function over all `Node`
variants and recurses through the composite variants `ArrayType`,
`PromiseType`, `UnionType` and `TypeLiteral`; a `MapType` node, however, is
not handled and always renders as the permissive fallback `"any"`. -/
theorem getParamType_total_recursive_except_mapType :
    (∀ p g, getParamType (.arrayType p g)
        = "Array<" ++ getParamType g ++ ">")
      ∧ (∀ p g, getParamType (.promiseType p g)
          = "Promise<" ++ getParamType g ++ ">")
      ∧ (∀ p ps, getParamType (.unionType p ps)
          = String.intercalate " | " (ps.map getParamType))
      ∧ (∀ p props, getParamType (.typeLiteral p props)
          = "\x7b" ++ String.intercalate ", " (props.map propRender) ++ "\x7d")
      ∧ (∀ p k v, getParamType (.mapType p k v) = "any") := by
  refine ⟨fun p g => rfl, fun p g => rfl, fun p ps => ?_,
    fun p props => ?_, fun p k v => rfl⟩
  · simp [getParamType, getParamTypeList_eq]
  · simp [getParamType, getParamTypeProps_eq]

/-- C4: for every parameter of a method view, the identifier rendered at the
declaration position and the one rendered at the call-site position are both
the `sanitize` transform of the source name (reserved words get the fixed
suffix `_`, other names are unchanged); the declaration position appends
only the optionality marker, type annotation and default value after it. -/
theorem reserved_word_decl_and_call_site_agree (className : String)
    (m : MethodDefinition) :
    ((buildMethodView className m).sendParameters.map ParamView.name
        = m.params.map (fun e => sanitize e.name))
      ∧ ((buildMethodView className m).parameters.map ParamView.name
          = m.params.map (fun e =>
              sanitize e.name ++ (if e.optional then "?" else "") ++ ": "
                ++ getParamType e.paramType
                ++ (match e.defaultValue with
                    | some d =>
                        " = " ++ (if d.type = .StringLiteral then
                            "'" ++ d.value ++ "'"
                          else d.value)
                    | none => ""))) := by
  constructor
  · simp [buildMethodView, setLastFlag_map_name, List.map_map,
      Function.comp, sendParamEntry, sanitize]
  · simp [buildMethodView, setLastFlag_map_name, List.map_map,
      Function.comp, paramDeclEntry, sanitize]

/-- C6: `getReturnType` renders a `VoidLiteral` return type as the empty
annotation, keeps a `PromiseType` as-is, and wraps every other return type
in `Promise<...>`. -/
theorem getReturnType_wraps_in_promise :
    (∀ rt : Node, rt.nodeType = .VoidLiteral → getReturnType rt = "")
      ∧ (∀ rt : Node, rt.nodeType = .PromiseType →
          getReturnType rt = ": " ++ getParamType rt)
      ∧ (∀ rt : Node, rt.nodeType ≠ .VoidLiteral →
          rt.nodeType ≠ .PromiseType →
          getReturnType rt = ": Promise<" ++ getParamType rt ++ ">") := by
  refine ⟨fun rt h => by simp [getReturnType, h],
    fun rt h => by simp [getReturnType, h],
    fun rt h1 h2 => by
      simp only [getReturnType, h1, h2, ne_eq, not_false_eq_true, if_true,
        if_false]
      rfl⟩

/-- C6, witness: the three cases of `getReturnType_wraps_in_promise`
evaluated at concrete nodes. -/
theorem getReturnType_wraps_in_promise_witness :
    getReturnType (.voidLiteral none) = ""
      ∧ getReturnType (.promiseType none (.stringLiteral none))
          = ": " ++ getParamType (.promiseType none (.stringLiteral none))
      ∧ getReturnType (.stringLiteral none)
          = ": Promise<" ++ getParamType (.stringLiteral none) ++ ">" :=
  ⟨getReturnType_wraps_in_promise.1 _ rfl,
   getReturnType_wraps_in_promise.2.1 _ rfl,
   getReturnType_wraps_in_promise.2.2 _ (by decide) (by decide)⟩

/-- C7: `generateSdk` is deterministic — two runs on identical input (the
same `classesInfo`) produce identical output file lists: same paths, same
contents, same order.  The embedding is a pure function of its input: the
generator performs no I/O and consults no ambient state. -/
theorem generateSdk_deterministic (i1 i2 : SdkGeneratorInput)
    (h : i1.classesInfo = i2.classesInfo) :
    generateSdk i1 = generateSdk i2 := by
  cases i1; cases i2; cases h; rfl

/-- A small concrete input (the spec §8 `User` example). -/
def exampleUserInput : SdkGeneratorInput :=
  { classesInfo :=
      [{ program :=
          { body := some
              [.classDefinition none "User"
                [.mk "create"
                  [.mk "name" false (.stringLiteral none) none,
                   .mk "email" false (.stringLiteral none) none,
                   .mk "password" false (.stringLiteral none) none]
                  (.voidLiteral none),
                 .mk "internalMethod" [] (.voidLiteral none)]] },
         classConfiguration :=
          { path := "src/user.ts", type := .jsonrpc,
            methods := [⟨"internalMethod", .http⟩] } }] }

/-- C7, witness: determinism instantiated at the concrete `User` input. -/
theorem generateSdk_deterministic_witness :
    generateSdk exampleUserInput = generateSdk exampleUserInput :=
  generateSdk_deterministic exampleUserInput exampleUserInput rfl

/-- C9: the reserved-word disambiguation is not injective — in one method
the distinct parameter names `for` (reserved) and `for_` (not reserved) both
sanitize to `for_`, so the generated declaration and call expression carry
two parameters with the same rendered name. -/
theorem sanitize_not_injective_for_for_underscore :
    sanitize "for" = "for_" ∧ sanitize "for_" = "for_"
      ∧ ("for" : String) ≠ "for_"
      ∧ ((buildMethodView "C"
          (.mk "m"
            [.mk "for" false (.stringLiteral none) none,
             .mk "for_" false (.stringLiteral none) none]
            (.voidLiteral none))).sendParameters.map ParamView.name
          = ["for_", "for_"])
      ∧ renderParams (buildMethodView "C"
          (.mk "m"
            [.mk "for" false (.stringLiteral none) none,
             .mk "for_" false (.stringLiteral none) none]
            (.voidLiteral none))).sendParameters = "for_, for_" := by
  decide

/-- C10: in `generateExternalType`, an enum case of value kind
`StringLiteral` renders as `name = "value"`, one of kind `DoubleLiteral`
renders as `name = value` (bare `name` when the value is absent), and a case
of any other kind renders as the JavaScript `undefined`, which contributes
an empty entry to the comma-joined enum body — its name and value are
silently dropped. -/
theorem generateExternalType_enum_cases :
    (∀ n v, renderEnumCase ⟨n, v, .StringLiteral⟩
        = some (n ++ " = \"" ++ jsInterp v ++ "\""))
      ∧ (∀ n val, renderEnumCase ⟨n, some val, .DoubleLiteral⟩
          = some (n ++ " = " ++ jsInterp (some val)))
      ∧ (∀ n, renderEnumCase ⟨n, none, .DoubleLiteral⟩ = some n)
      ∧ (∀ n v k, k ≠ AstNodeType.StringLiteral →
          k ≠ AstNodeType.DoubleLiteral → renderEnumCase ⟨n, v, k⟩ = none)
      ∧ (∀ p name cases, generateExternalType (.enum p name cases)
          = "enum " ++ name ++ " \x7b"
              ++ jsJoinOpt ", " (cases.map renderEnumCase) ++ "\x7d")
      ∧ generateExternalType (.enum none "E"
          [⟨"A", some (.str "x"), .StringLiteral⟩,
           ⟨"B", some (.num 3), .IntegerLiteral⟩,
           ⟨"C", some (.num 2), .DoubleLiteral⟩])
          = "enum E \x7bA = \"x\", , C = 2\x7d" := by
  refine ⟨fun n v => rfl, fun n val => by simp [renderEnumCase],
    fun n => by simp [renderEnumCase],
    fun n v k h1 h2 => by simp [renderEnumCase, h1, h2],
    fun p name cases => rfl, by decide⟩

/-- C10, witness: the other-kind branch of `generateExternalType_enum_cases`
at the concrete `IntegerLiteral` case. -/
theorem generateExternalType_enum_cases_witness :
    AstNodeType.IntegerLiteral ≠ AstNodeType.StringLiteral
      ∧ AstNodeType.IntegerLiteral ≠ AstNodeType.DoubleLiteral
      ∧ renderEnumCase ⟨"B", some (.num 3), .IntegerLiteral⟩ = none :=
  ⟨by decide, by decide,
   generateExternalType_enum_cases.2.2.2.1 "B" (some (.num 3))
     .IntegerLiteral (by decide) (by decide)⟩

/-- C1, counterexample: exposure-mode match with the jsonrpc channel is not
sufficient for inclusion.  With the class-level trigger `http` and the
method-level trigger `jsonrpc`, the method's exposure mode (method-level
trigger, falling back to class-level) is `jsonrpc`, yet the generated
output contains no proxy file at all — only the transport stub — because
the generator additionally requires the class-level trigger to be
`jsonrpc`. -/
theorem method_exposure_match_not_sufficient :
    getMethodType ⟨"src/c.ts", .http, [⟨"m", .jsonrpc⟩]⟩ "m"
        = TriggerType.jsonrpc
      ∧ generateSdk ⟨[⟨⟨some [.classDefinition none "C"
            [.mk "m" [] (.voidLiteral none)]]⟩,
          ⟨"src/c.ts", .http, [⟨"m", .jsonrpc⟩]⟩⟩]⟩ = [remoteFile] :=
  ⟨rfl, rfl⟩

/-- C1, amended: a method is included in the generated proxy exactly when
its method-level trigger (falling back to the class-level trigger) is
`jsonrpc` AND the class-level trigger is itself `jsonrpc`; all qualifying
methods appear in one proxy file, in source declaration order, and
non-qualifying methods are dropped. -/
theorem proxy_holds_exactly_the_qualifying_methods_in_order :
    (∀ cfg className methods,
        processMethods cfg className methods
          = ((methods.filter (qualifies cfg)).map (buildMethodView className),
              methods.any (qualifies cfg)))
      ∧ (∀ (p : Option String) (className : String)
            (methods : List MethodDefinition) (cfg : SdkClassConfiguration),
          methods.any (qualifies cfg) = true →
          generateSdk ⟨[⟨⟨some [.classDefinition p className methods]⟩, cfg⟩]⟩
            = [{ path := lowerFirst (className ++ ".sdk.ts"),
                 data := renderTemplate
                   { className := className,
                     url := "%%%link_to_be_replace%%%",
                     methods := (methods.filter (qualifies cfg)).map
                       (buildMethodView className),
                     externalTypes := [],
                     imports := [] },
                 className := className },
               remoteFile]) := by
  refine ⟨processMethods_eq, fun p className methods cfg hq => ?_⟩
  simp [generateSdk, processClass, splitBody, processExternalTypes,
    processMethods_eq, hq]

/-- C1, witness: the amended statement at a concrete one-method jsonrpc
class. -/
theorem proxy_holds_exactly_the_qualifying_methods_in_order_witness :
    ([MethodDefinition.mk "m" [] (.voidLiteral none)].any
        (qualifies ⟨"src/c.ts", .jsonrpc, []⟩)) = true
      ∧ generateSdk ⟨[⟨⟨some [.classDefinition none "C"
            [.mk "m" [] (.voidLiteral none)]]⟩,
          ⟨"src/c.ts", .jsonrpc, []⟩⟩]⟩
          = [{ path := lowerFirst ("C" ++ ".sdk.ts"),
               data := renderTemplate
                 { className := "C",
                   url := "%%%link_to_be_replace%%%",
                   methods := (([MethodDefinition.mk "m" []
                       (.voidLiteral none)].filter
                         (qualifies ⟨"src/c.ts", .jsonrpc, []⟩)).map
                     (buildMethodView "C")),
                   externalTypes := [],
                   imports := [] },
               className := "C" },
             remoteFile] :=
  ⟨rfl, proxy_holds_exactly_the_qualifying_methods_in_order.2 none "C"
    [.mk "m" [] (.voidLiteral none)] ⟨"src/c.ts", .jsonrpc, []⟩ rfl⟩

/-- C5: a class with zero channel-qualifying methods contributes no file at
all (in particular no proxy file) — a silent skip, not an error — while the
transport-stub artifact `remote.ts` is unconditionally the last entry of
every output file list. -/
theorem empty_class_skipped_but_stub_always_present :
    (∀ input : SdkGeneratorInput,
        (generateSdk input).getLast? = some remoteFile)
      ∧ (∀ (classInfo : SdkGeneratorClassesInfoInput) (body : List Node)
            (className : String) (methods : List MethodDefinition)
            (externalTypes : List Node),
          classInfo.program.body = some body →
          splitBody body = (some (className, methods), externalTypes) →
          methods.any (qualifies classInfo.classConfiguration) = false →
          processClass classInfo = []) := by
  constructor
  · intro input
    rw [generateSdk]
    simp [List.getLast?_append]
  · intro classInfo body className methods externalTypes hbody hsplit hnone
    simp [processClass, hbody, hsplit, processMethods_eq, hnone]

/-- C5, witness: both parts at concrete inputs — the `User` example for the
stub, and a class whose single method is configured on the `http` channel
for the skip. -/
theorem empty_class_skipped_but_stub_always_present_witness :
    (generateSdk exampleUserInput).getLast? = some remoteFile
      ∧ processClass ⟨⟨some [.classDefinition none "C"
            [.mk "m" [] (.voidLiteral none)]]⟩,
          ⟨"src/c.ts", .http, []⟩⟩ = [] :=
  ⟨empty_class_skipped_but_stub_always_present.1 exampleUserInput,
   empty_class_skipped_but_stub_always_present.2
     ⟨⟨some [.classDefinition none "C" [.mk "m" [] (.voidLiteral none)]]⟩,
       ⟨"src/c.ts", .http, []⟩⟩
     [.classDefinition none "C" [.mk "m" [] (.voidLiteral none)]]
     "C" [.mk "m" [] (.voidLiteral none)] [] rfl rfl (by decide)⟩

/-- C8: an input whose `Program.body` is `undefined` or contains no
`ClassDefinition` node is skipped silently — it contributes no artifact and
removing it from the input list leaves the output unchanged; no error is
raised (the embedding is total). -/
theorem body_without_class_definition_skipped
    (pre post : List SdkGeneratorClassesInfoInput)
    (classInfo : SdkGeneratorClassesInfoInput)
    (h : classInfo.program.body = none
      ∨ ∃ body, classInfo.program.body = some body
          ∧ ∀ n ∈ body, n.nodeType ≠ AstNodeType.ClassDefinition) :
    processClass classInfo = []
      ∧ generateSdk ⟨pre ++ classInfo :: post⟩ = generateSdk ⟨pre ++ post⟩ := by
  have hempty : processClass classInfo = [] := by
    rcases h with h | ⟨body, hbody, hno⟩
    · simp [processClass, h]
    · have h1 := splitBody_fst_none body hno
      rcases hsb : splitBody body with ⟨c, exts⟩
      rw [hsb] at h1
      simp at h1
      subst h1
      simp [processClass, hbody, hsb]
  refine ⟨hempty, ?_⟩
  simp [generateSdk, hempty]

/-- C3, counterexample: import groups are not ordered by resolved relative
provider path.  With two external aliases homed at `zz` and then `aa`
(resolved relative paths `zz` and `aa`), the proxy view's import groups
appear as `[zz, aa]`, which is not ordered, and the rendered proxy file
contains the `./zz` import line immediately before the `./aa` one. -/
theorem proxy_imports_not_ordered_by_provider_path :
    ((processExternalTypes ⟨"src/c.ts", .jsonrpc, []⟩
        [.typeAlias (some "zz") "A" (.stringLiteral none),
         .typeAlias (some "aa") "B" (.stringLiteral none)]).viewImports.map
      ImportGroup.path = ["zz", "aa"])
      ∧ pathRelative "." "zz" = "zz"
      ∧ pathRelative "." "aa" = "aa"
      ∧ ¬ (["zz", "aa"].Pairwise strLe)
      ∧ (generateSdk ⟨[⟨⟨some
            [.classDefinition none "C" [.mk "m" [] (.voidLiteral none)],
             .typeAlias (some "zz") "A" (.stringLiteral none),
             .typeAlias (some "aa") "B" (.stringLiteral none)]⟩,
          ⟨"src/c.ts", .jsonrpc, []⟩⟩]⟩).head?.map
            (fun f => jsIncludes f.data
              "import \x7b A \x7d from \"./zz\";\nimport \x7b B \x7d from \"./aa\";")
          = some true := by
  refine ⟨by decide, by decide, by decide, by decide, by decide⟩

/-- C3, amended: for the proxy file the import list groups by provider on
first encounter only — import groups appear in the order their provider
path is first encountered while scanning the class's external types in body
order, and within each group the imported symbols appear in encounter
order, without deduplication or sorting by name.  (Stated for any two
distinct providers, the first contributing two symbols, so it covers
pairs in and out of lexicographic order and repeated symbol names.) -/
theorem proxy_imports_in_encounter_order
    (cfg : SdkClassConfiguration) (p1 p2 n1 n2 n3 : String)
    (hp1 : p1 ≠ "") (hp2 : p2 ≠ "") (hne : p1 ≠ p2)
    (hrel1 : stripDotDot (pathRelative "." p1) = p1)
    (hrel2 : stripDotDot (pathRelative "." p2) = p2)
    (hinc1 : jsIncludes cfg.path p1 = false)
    (hinc2 : jsIncludes cfg.path p2 = false) :
    processExternalTypes cfg
        [.typeAlias (some p1) n1 (.stringLiteral none),
         .typeAlias (some p1) n2 (.stringLiteral none),
         .typeAlias (some p2) n3 (.stringLiteral none)]
      = { viewImports :=
            [⟨p1, [⟨n1, false⟩, ⟨n2, false⟩], false⟩,
             ⟨p2, [⟨n3, false⟩], false⟩],
          viewExternalTypes := [],
          modelViews :=
            [⟨p1,
              [⟨generateExternalType
                  (.typeAlias (some p1) n1 (.stringLiteral none))⟩,
               ⟨generateExternalType
                  (.typeAlias (some p1) n2 (.stringLiteral none))⟩],
              [], false⟩,
             ⟨p2,
              [⟨generateExternalType
                  (.typeAlias (some p2) n3 (.stringLiteral none))⟩],
              [], false⟩] } := by
  simp [processExternalTypes, extStep, innerStep, isExternalTypeUsed,
    truthy, hp1, hp2, hne, hinc1, hinc2, hrel1, hrel2, Node.path, Node.jsName,
    addImportScanView, addOwnership, lastIdxWhere, jsOr, beq_iff_eq,
    Ne.symm hne]

/-- C3, witness: the encounter-order statement instantiated at providers
`zz` before `aa` (reverse lexicographic order) with a repeated symbol name
`A` in the first group. -/
theorem proxy_imports_in_encounter_order_witness :
    ("zz" : String) ≠ "aa"
      ∧ processExternalTypes ⟨"src/c.ts", .jsonrpc, []⟩
          [.typeAlias (some "zz") "A" (.stringLiteral none),
           .typeAlias (some "zz") "A" (.stringLiteral none),
           .typeAlias (some "aa") "B" (.stringLiteral none)]
        = { viewImports :=
              [⟨"zz", [⟨"A", false⟩, ⟨"A", false⟩], false⟩,
               ⟨"aa", [⟨"B", false⟩], false⟩],
            viewExternalTypes := [],
            modelViews :=
              [⟨"zz",
                [⟨generateExternalType
                    (.typeAlias (some "zz") "A" (.stringLiteral none))⟩,
                 ⟨generateExternalType
                    (.typeAlias (some "zz") "A" (.stringLiteral none))⟩],
                [], false⟩,
               ⟨"aa",
                [⟨generateExternalType
                    (.typeAlias (some "aa") "B" (.stringLiteral none))⟩],
                [], false⟩] } :=
  ⟨by decide,
   proxy_imports_in_encounter_order ⟨"src/c.ts", .jsonrpc, []⟩ "zz" "aa"
     "A" "A" "B" (by decide) (by decide) (by decide) (by decide) (by decide)
     (by decide) (by decide)⟩

/-- C8, witness: the skip at a concrete input — `body` holding a lone
`TypeAlias` and no `ClassDefinition`. -/
theorem body_without_class_definition_skipped_witness :
    processClass ⟨⟨some [.typeAlias none "T" (.stringLiteral none)]⟩,
        ⟨"src/c.ts", .jsonrpc, []⟩⟩ = []
      ∧ generateSdk ⟨[] ++ ⟨⟨some [.typeAlias none "T" (.stringLiteral none)]⟩,
          ⟨"src/c.ts", .jsonrpc, []⟩⟩ :: []⟩ = generateSdk ⟨[] ++ []⟩ :=
  body_without_class_definition_skipped [] []
    ⟨⟨some [.typeAlias none "T" (.stringLiteral none)]⟩,
      ⟨"src/c.ts", .jsonrpc, []⟩⟩
    (Or.inr ⟨_, rfl, by decide⟩)

end Genezio
